import Mathlib

set_option maxRecDepth 8192

/-!
Shallow embedding of the `unicode_hfwidth` Rust crate (src/lib.rs).

Characters are modelled as their Unicode code point (`Nat`); `char as u32`
is the identity on the code point and the unchecked `transmute` back to
`char` is likewise the identity on the code point.  Rust's inclusive range
patterns `a...b` become conjunctions `a ≤ ch ∧ ch ≤ b`.  The long runs of
singleton match arms (one constant pattern mapped to one constant result)
are represented as association tables in source order, scanned in order by
`tableLookup`; the remaining arms stay as an `if`/`else if` chain in source
order.  Match arms are mutually disjoint in the source, so this ordered
reading is exact.
-/

/-- Ordered scan of a singleton-arm table: the first pair whose key equals
`ch` yields its value, otherwise `none` (the `_ => None` arm). -/
def tableLookup (ch : Nat) : List (Nat × Nat) → Option Nat
  | [] => none
  | (k, v) :: rest => if ch = k then some v else tableLookup ch rest

/-- Embedding of `is_nonstandard_width` (src/lib.rs lines 12-17). -/
def is_nonstandard_width (ch : Nat) : Bool :=
  if 0xff00 ≤ ch ∧ ch ≤ 0xffee then true
  else false

/-- The 122 "Natural full-width characters" singleton arms of `to_halfwidth`
(src/lib.rs lines 61-182), in source order. -/
def hwTable : List (Nat × Nat) := [
  (0x3002, 0xff61),
  (0x300c, 0xff62),
  (0x300d, 0xff63),
  (0x3001, 0xff64),
  (0x30fb, 0xff65),
  (0x30f2, 0xff66),
  (0x30a1, 0xff67),
  (0x30a3, 0xff68),
  (0x30a5, 0xff69),
  (0x30a7, 0xff6a),
  (0x30a9, 0xff6b),
  (0x30e3, 0xff6c),
  (0x30e5, 0xff6d),
  (0x30e7, 0xff6e),
  (0x30c3, 0xff6f),
  (0x30fc, 0xff70),
  (0x30a2, 0xff71),
  (0x30a4, 0xff72),
  (0x30a6, 0xff73),
  (0x30a8, 0xff74),
  (0x30aa, 0xff75),
  (0x30ab, 0xff76),
  (0x30ad, 0xff77),
  (0x30af, 0xff78),
  (0x30b1, 0xff79),
  (0x30b3, 0xff7a),
  (0x30b5, 0xff7b),
  (0x30b7, 0xff7c),
  (0x30b9, 0xff7d),
  (0x30bb, 0xff7e),
  (0x30bd, 0xff7f),
  (0x30bf, 0xff80),
  (0x30c1, 0xff81),
  (0x30c4, 0xff82),
  (0x30c6, 0xff83),
  (0x30c8, 0xff84),
  (0x30ca, 0xff85),
  (0x30cb, 0xff86),
  (0x30cc, 0xff87),
  (0x30cd, 0xff88),
  (0x30ce, 0xff89),
  (0x30cf, 0xff8a),
  (0x30d2, 0xff8b),
  (0x30d5, 0xff8c),
  (0x30d8, 0xff8d),
  (0x30db, 0xff8e),
  (0x30de, 0xff8f),
  (0x30df, 0xff90),
  (0x30e0, 0xff91),
  (0x30e1, 0xff92),
  (0x30e2, 0xff93),
  (0x30e4, 0xff94),
  (0x30e6, 0xff95),
  (0x30e8, 0xff96),
  (0x30e9, 0xff97),
  (0x30ea, 0xff98),
  (0x30eb, 0xff99),
  (0x30ec, 0xff9a),
  (0x30ed, 0xff9b),
  (0x30ef, 0xff9c),
  (0x30f3, 0xff9d),
  (0x3099, 0xff9e),
  (0x309a, 0xff9f),
  (0x3164, 0xffa0),
  (0x3131, 0xffa1),
  (0x3132, 0xffa2),
  (0x3133, 0xffa3),
  (0x3134, 0xffa4),
  (0x3135, 0xffa5),
  (0x3136, 0xffa6),
  (0x3137, 0xffa7),
  (0x3138, 0xffa8),
  (0x3139, 0xffa9),
  (0x313a, 0xffaa),
  (0x313b, 0xffab),
  (0x313c, 0xffac),
  (0x313d, 0xffad),
  (0x313e, 0xffae),
  (0x313f, 0xffaf),
  (0x3140, 0xffb0),
  (0x3141, 0xffb1),
  (0x3142, 0xffb2),
  (0x3143, 0xffb3),
  (0x3144, 0xffb4),
  (0x3145, 0xffb5),
  (0x3146, 0xffb6),
  (0x3147, 0xffb7),
  (0x3148, 0xffb8),
  (0x3149, 0xffb9),
  (0x314a, 0xffba),
  (0x314b, 0xffbb),
  (0x314c, 0xffbc),
  (0x314d, 0xffbd),
  (0x314e, 0xffbe),
  (0x314f, 0xffc2),
  (0x3150, 0xffc3),
  (0x3151, 0xffc4),
  (0x3152, 0xffc5),
  (0x3153, 0xffc6),
  (0x3154, 0xffc7),
  (0x3155, 0xffca),
  (0x3156, 0xffcb),
  (0x3157, 0xffcc),
  (0x3158, 0xffcd),
  (0x3159, 0xffce),
  (0x315a, 0xffcf),
  (0x315b, 0xffd2),
  (0x315c, 0xffd3),
  (0x315d, 0xffd4),
  (0x315e, 0xffd5),
  (0x315f, 0xffd6),
  (0x3160, 0xffd7),
  (0x3161, 0xffda),
  (0x3162, 0xffdb),
  (0x3163, 0xffdc),
  (0x2502, 0xffe8),
  (0x2190, 0xffe9),
  (0x2191, 0xffea),
  (0x2192, 0xffeb),
  (0x2193, 0xffec),
  (0x25a0, 0xffed),
  (0x25cb, 0xffee)
]

/-- Embedding of `to_halfwidth` (src/lib.rs lines 46-187): the
"Full-width variant characters" arms, then the singleton table. -/
def to_halfwidth (ch : Nat) : Option Nat :=
  if 0xff01 ≤ ch ∧ ch ≤ 0xff5e then some (ch - 0xff01 + 0x0021)
  else if 0xff5f ≤ ch ∧ ch ≤ 0xff60 then some (ch - 0xff5f + 0x2985)
  else if 0xffe0 ≤ ch ∧ ch ≤ 0xffe1 then some (ch - 0xffe0 + 0x00a2)
  else if ch = 0xffe2 then some 0x00ac
  else if ch = 0xffe3 then some 0x00af
  else if ch = 0xffe4 then some 0x00a6
  else if ch = 0xffe5 then some 0x00a5
  else if ch = 0xffe6 then some 0x20a9
  else tableLookup ch hwTable

/-- The 122 "Half-width variant characters" singleton arms of `to_fullwidth`
(src/lib.rs lines 202-323), in source order. -/
def fwTable : List (Nat × Nat) := [
  (0xff61, 0x3002),
  (0xff62, 0x300c),
  (0xff63, 0x300d),
  (0xff64, 0x3001),
  (0xff65, 0x30fb),
  (0xff66, 0x30f2),
  (0xff67, 0x30a1),
  (0xff68, 0x30a3),
  (0xff69, 0x30a5),
  (0xff6a, 0x30a7),
  (0xff6b, 0x30a9),
  (0xff6c, 0x30e3),
  (0xff6d, 0x30e5),
  (0xff6e, 0x30e7),
  (0xff6f, 0x30c3),
  (0xff70, 0x30fc),
  (0xff71, 0x30a2),
  (0xff72, 0x30a4),
  (0xff73, 0x30a6),
  (0xff74, 0x30a8),
  (0xff75, 0x30aa),
  (0xff76, 0x30ab),
  (0xff77, 0x30ad),
  (0xff78, 0x30af),
  (0xff79, 0x30b1),
  (0xff7a, 0x30b3),
  (0xff7b, 0x30b5),
  (0xff7c, 0x30b7),
  (0xff7d, 0x30b9),
  (0xff7e, 0x30bb),
  (0xff7f, 0x30bd),
  (0xff80, 0x30bf),
  (0xff81, 0x30c1),
  (0xff82, 0x30c4),
  (0xff83, 0x30c6),
  (0xff84, 0x30c8),
  (0xff85, 0x30ca),
  (0xff86, 0x30cb),
  (0xff87, 0x30cc),
  (0xff88, 0x30cd),
  (0xff89, 0x30ce),
  (0xff8a, 0x30cf),
  (0xff8b, 0x30d2),
  (0xff8c, 0x30d5),
  (0xff8d, 0x30d8),
  (0xff8e, 0x30db),
  (0xff8f, 0x30de),
  (0xff90, 0x30df),
  (0xff91, 0x30e0),
  (0xff92, 0x30e1),
  (0xff93, 0x30e2),
  (0xff94, 0x30e4),
  (0xff95, 0x30e6),
  (0xff96, 0x30e8),
  (0xff97, 0x30e9),
  (0xff98, 0x30ea),
  (0xff99, 0x30eb),
  (0xff9a, 0x30ec),
  (0xff9b, 0x30ed),
  (0xff9c, 0x30ef),
  (0xff9d, 0x30f3),
  (0xff9e, 0x3099),
  (0xff9f, 0x309a),
  (0xffa0, 0x3164),
  (0xffa1, 0x3131),
  (0xffa2, 0x3132),
  (0xffa3, 0x3133),
  (0xffa4, 0x3134),
  (0xffa5, 0x3135),
  (0xffa6, 0x3136),
  (0xffa7, 0x3137),
  (0xffa8, 0x3138),
  (0xffa9, 0x3139),
  (0xffaa, 0x313a),
  (0xffab, 0x313b),
  (0xffac, 0x313c),
  (0xffad, 0x313d),
  (0xffae, 0x313e),
  (0xffaf, 0x313f),
  (0xffb0, 0x3140),
  (0xffb1, 0x3141),
  (0xffb2, 0x3142),
  (0xffb3, 0x3143),
  (0xffb4, 0x3144),
  (0xffb5, 0x3145),
  (0xffb6, 0x3146),
  (0xffb7, 0x3147),
  (0xffb8, 0x3148),
  (0xffb9, 0x3149),
  (0xffba, 0x314a),
  (0xffbb, 0x314b),
  (0xffbc, 0x314c),
  (0xffbd, 0x314d),
  (0xffbe, 0x314e),
  (0xffc2, 0x314f),
  (0xffc3, 0x3150),
  (0xffc4, 0x3151),
  (0xffc5, 0x3152),
  (0xffc6, 0x3153),
  (0xffc7, 0x3154),
  (0xffca, 0x3155),
  (0xffcb, 0x3156),
  (0xffcc, 0x3157),
  (0xffcd, 0x3158),
  (0xffce, 0x3159),
  (0xffcf, 0x315a),
  (0xffd2, 0x315b),
  (0xffd3, 0x315c),
  (0xffd4, 0x315d),
  (0xffd5, 0x315e),
  (0xffd6, 0x315f),
  (0xffd7, 0x3160),
  (0xffda, 0x3161),
  (0xffdb, 0x3162),
  (0xffdc, 0x3163),
  (0xffe8, 0x2502),
  (0xffe9, 0x2190),
  (0xffea, 0x2191),
  (0xffeb, 0x2192),
  (0xffec, 0x2193),
  (0xffed, 0x25a0),
  (0xffee, 0x25cb)
]

/-- The "Natural half-width characters" arms of `to_fullwidth`
(src/lib.rs lines 326-335), in source order. -/
def fwNatural (ch : Nat) : Option Nat :=
  if 0x0021 ≤ ch ∧ ch ≤ 0x007e then some (ch - 0x0021 + 0xff01)
  else if 0x2985 ≤ ch ∧ ch ≤ 0x2986 then some (ch - 0x2985 + 0xff5f)
  else if 0x00a2 ≤ ch ∧ ch ≤ 0x00a3 then some (ch - 0x00a2 + 0xffe0)
  else if ch = 0x00ac then some 0xffe2
  else if ch = 0x00af then some 0xffe3
  else if ch = 0x00a6 then some 0xffe4
  else if ch = 0x00a5 then some 0xffe5
  else if ch = 0x20a9 then some 0xffe6
  else none

/-- Embedding of `to_fullwidth` (src/lib.rs lines 197-338): the singleton
table ("Half-width variant characters"), then the
"Natural half-width characters" arms. -/
def to_fullwidth (ch : Nat) : Option Nat :=
  match tableLookup ch fwTable with
  | some v => some v
  | none => fwNatural ch

/-- Embedding of `to_standard_width` (src/lib.rs lines 28-36). -/
def to_standard_width (ch : Nat) : Option Nat :=
  if 0xff01 ≤ ch ∧ ch ≤ 0xff60 then to_halfwidth ch
  else if 0xff61 ≤ ch ∧ ch ≤ 0xffdc then to_fullwidth ch
  else if 0xffe0 ≤ ch ∧ ch ≤ 0xffe6 then to_halfwidth ch
  else if 0xffe8 ≤ ch ∧ ch ≤ 0xffee then to_fullwidth ch
  else none


/-! ### Generic facts about ordered table scans -/

theorem tableLookup_mem {ch v : Nat} :
    ∀ {t : List (Nat × Nat)}, tableLookup ch t = some v → (ch, v) ∈ t := by
  intro t
  induction t with
  | nil => intro h; exact Option.noConfusion h
  | cons a rest ih =>
    obtain ⟨k, w⟩ := a
    intro h
    rw [tableLookup] at h
    by_cases hk : ch = k
    · rw [if_pos hk] at h
      obtain rfl := hk
      obtain rfl : w = v := Option.some.inj h
      exact List.mem_cons_self _ _
    · rw [if_neg hk] at h
      exact List.mem_cons_of_mem _ (ih h)

theorem tableLookup_none {ch : Nat} :
    ∀ {t : List (Nat × Nat)}, (∀ p ∈ t, ch ≠ p.1) → tableLookup ch t = none := by
  intro t
  induction t with
  | nil => intro _; rfl
  | cons a rest ih =>
    obtain ⟨k, w⟩ := a
    intro h
    rw [tableLookup, if_neg (h (k, w) (List.mem_cons_self _ _))]
    exact ih fun p hp => h p (List.mem_cons_of_mem _ hp)

/-! ### Bounds on the tables, checked by evaluation -/

theorem hwTable_keys : ∀ p ∈ hwTable, 0x2190 ≤ p.1 ∧ p.1 ≤ 0x3164 ∧ p.1 ≠ 0x2985 ∧ p.1 ≠ 0x2986 := by decide

theorem hwTable_vals : ∀ p ∈ hwTable, 0xff61 ≤ p.2 ∧ p.2 ≤ 0xffee := by decide

theorem fwTable_keys : ∀ p ∈ fwTable, 0xff61 ≤ p.1 ∧ p.1 ≤ 0xffee ∧ ¬(0xffe0 ≤ p.1 ∧ p.1 ≤ 0xffe7) := by decide

theorem fwTable_vals : ∀ p ∈ fwTable, 0x2190 ≤ p.2 ∧ p.2 ≤ 0x3164 := by decide

/-! ### Round-trip of the singleton tables, checked by evaluation -/

theorem hwTable_rt : ∀ p ∈ hwTable, to_fullwidth p.2 = some p.1 := by decide

theorem fwTable_rt : ∀ p ∈ fwTable, to_halfwidth p.2 = some p.1 := by decide

/-! ### Shape lemmas: domains and output ranges of the conversions -/

theorem to_halfwidth_shape {ch h : Nat} (H : to_halfwidth ch = some h) :
    (0xff01 ≤ ch ∧ ch ≤ 0xff60 ∧ 0x21 ≤ h ∧ h ≤ 0x2986) ∨
    (0xffe0 ≤ ch ∧ ch ≤ 0xffe6 ∧ 0xa2 ≤ h ∧ h ≤ 0x20a9) ∨
    ((ch, h) ∈ hwTable ∧ 0x2190 ≤ ch ∧ ch ≤ 0x3164 ∧ ch ≠ 0x2985 ∧ ch ≠ 0x2986 ∧
      0xff61 ≤ h ∧ h ≤ 0xffee) := by
  unfold to_halfwidth at H
  split_ifs at H <;>
    first
    | (simp only [Option.some.injEq] at H; omega)
    | (refine Or.inr (Or.inr ?_)
       have hm := tableLookup_mem H
       have hk := hwTable_keys _ hm
       have hv := hwTable_vals _ hm
       exact ⟨hm, hk.1, hk.2.1, hk.2.2.1, hk.2.2.2, hv.1, hv.2⟩)

theorem to_fullwidth_shape {ch f : Nat} (H : to_fullwidth ch = some f) :
    ((ch, f) ∈ fwTable ∧ 0xff61 ≤ ch ∧ ch ≤ 0xffee ∧ ¬(0xffe0 ≤ ch ∧ ch ≤ 0xffe7) ∧
      0x2190 ≤ f ∧ f ≤ 0x3164) ∨
    (0x21 ≤ ch ∧ ch ≤ 0x7e ∧ f = ch - 0x21 + 0xff01) ∨
    (0x2985 ≤ ch ∧ ch ≤ 0x2986 ∧ f = ch - 0x2985 + 0xff5f) ∨
    ((0xa2 ≤ ch ∧ ch ≤ 0xaf ∨ ch = 0x20a9) ∧ 0xffe0 ≤ f ∧ f ≤ 0xffe6) := by
  unfold to_fullwidth at H
  cases heq : tableLookup ch fwTable with
  | some v =>
    rw [heq] at H
    obtain rfl : v = f := Option.some.inj H
    have hm := tableLookup_mem heq
    have hk := fwTable_keys _ hm
    have hv := fwTable_vals _ hm
    exact Or.inl ⟨hm, hk.1, hk.2.1, hk.2.2, hv.1, hv.2⟩
  | none =>
    rw [heq] at H
    unfold fwNatural at H
    split_ifs at H <;>
      (simp only [Option.some.injEq] at H; omega)

/-! ### Defining equations of `to_fullwidth` in terms of the table scan -/

theorem to_fullwidth_of_table_some {ch v : Nat} (h : tableLookup ch fwTable = some v) :
    to_fullwidth ch = some v := by
  unfold to_fullwidth; rw [h]

theorem to_fullwidth_of_table_none {ch : Nat} (h : tableLookup ch fwTable = none) :
    to_fullwidth ch = fwNatural ch := by
  unfold to_fullwidth; rw [h]

theorem fwTable_lookup_none_of_low {ch : Nat} (h : ch < 0xff61) :
    tableLookup ch fwTable = none :=
  tableLookup_none fun p hp => by have := fwTable_keys p hp; omega

/-! ### The constant-offset sub-ranges, as closed-form equations -/

theorem to_halfwidth_ascii {ch : Nat} (h1 : 0xff01 ≤ ch) (h2 : ch ≤ 0xff5e) :
    to_halfwidth ch = some (ch - 0xff01 + 0x0021) := by
  unfold to_halfwidth
  rw [if_pos (show 0xff01 ≤ ch ∧ ch ≤ 0xff5e from ⟨h1, h2⟩)]

theorem to_halfwidth_bracket {ch : Nat} (h1 : 0xff5f ≤ ch) (h2 : ch ≤ 0xff60) :
    to_halfwidth ch = some (ch - 0xff5f + 0x2985) := by
  unfold to_halfwidth
  rw [if_neg (show ¬(0xff01 ≤ ch ∧ ch ≤ 0xff5e) by omega),
      if_pos (show 0xff5f ≤ ch ∧ ch ≤ 0xff60 from ⟨h1, h2⟩)]

theorem to_halfwidth_currency {ch : Nat} (h1 : 0xffe0 ≤ ch) (h2 : ch ≤ 0xffe1) :
    to_halfwidth ch = some (ch - 0xffe0 + 0x00a2) := by
  unfold to_halfwidth
  rw [if_neg (show ¬(0xff01 ≤ ch ∧ ch ≤ 0xff5e) by omega),
      if_neg (show ¬(0xff5f ≤ ch ∧ ch ≤ 0xff60) by omega),
      if_pos (show 0xffe0 ≤ ch ∧ ch ≤ 0xffe1 from ⟨h1, h2⟩)]

theorem to_fullwidth_ascii {ch : Nat} (h1 : 0x0021 ≤ ch) (h2 : ch ≤ 0x007e) :
    to_fullwidth ch = some (ch - 0x0021 + 0xff01) := by
  rw [to_fullwidth_of_table_none (fwTable_lookup_none_of_low (by omega))]
  unfold fwNatural
  rw [if_pos (show 0x0021 ≤ ch ∧ ch ≤ 0x007e from ⟨h1, h2⟩)]

theorem to_fullwidth_bracket {ch : Nat} (h1 : 0x2985 ≤ ch) (h2 : ch ≤ 0x2986) :
    to_fullwidth ch = some (ch - 0x2985 + 0xff5f) := by
  rw [to_fullwidth_of_table_none (fwTable_lookup_none_of_low (by omega))]
  unfold fwNatural
  rw [if_neg (show ¬(0x0021 ≤ ch ∧ ch ≤ 0x007e) by omega),
      if_pos (show 0x2985 ≤ ch ∧ ch ≤ 0x2986 from ⟨h1, h2⟩)]

theorem to_fullwidth_currency {ch : Nat} (h1 : 0x00a2 ≤ ch) (h2 : ch ≤ 0x00a3) :
    to_fullwidth ch = some (ch - 0x00a2 + 0xffe0) := by
  rw [to_fullwidth_of_table_none (fwTable_lookup_none_of_low (by omega))]
  unfold fwNatural
  rw [if_neg (show ¬(0x0021 ≤ ch ∧ ch ≤ 0x007e) by omega),
      if_neg (show ¬(0x2985 ≤ ch ∧ ch ≤ 0x2986) by omega),
      if_pos (show 0x00a2 ≤ ch ∧ ch ≤ 0x00a3 from ⟨h1, h2⟩)]

/-! ### Round trip on the offset sub-ranges and singles -/

theorem hwTable_lookup_none_of_range {ch : Nat} (h : 0xff01 ≤ ch) :
    tableLookup ch hwTable = none :=
  tableLookup_none fun p hp => by have := hwTable_keys p hp; omega

/-- Forward round trip: a successful `to_halfwidth` is undone by `to_fullwidth`. -/
theorem roundtrip_half {ch h : Nat} (H : to_halfwidth ch = some h) :
    to_fullwidth h = some ch := by
  unfold to_halfwidth at H
  split_ifs at H with c1 c2 c3 c4 c5 c6 c7 c8
  · obtain rfl := Option.some.inj H
    rw [to_fullwidth_ascii (by omega) (by omega)]
    simp only [Option.some.injEq]
    omega
  · obtain rfl := Option.some.inj H
    rw [to_fullwidth_bracket (by omega) (by omega)]
    simp only [Option.some.injEq]
    omega
  · obtain rfl := Option.some.inj H
    rw [to_fullwidth_currency (by omega) (by omega)]
    simp only [Option.some.injEq]
    omega
  · obtain rfl := Option.some.inj H; subst c4; decide
  · obtain rfl := Option.some.inj H; subst c5; decide
  · obtain rfl := Option.some.inj H; subst c6; decide
  · obtain rfl := Option.some.inj H; subst c7; decide
  · obtain rfl := Option.some.inj H; subst c8; decide
  · exact hwTable_rt _ (tableLookup_mem H)

/-- Backward round trip: a successful `to_fullwidth` is undone by `to_halfwidth`. -/
theorem roundtrip_full {ch f : Nat} (H : to_fullwidth ch = some f) :
    to_halfwidth f = some ch := by
  unfold to_fullwidth at H
  cases heq : tableLookup ch fwTable with
  | some v =>
    rw [heq] at H
    obtain rfl := Option.some.inj H
    exact fwTable_rt _ (tableLookup_mem heq)
  | none =>
    rw [heq] at H
    unfold fwNatural at H
    split_ifs at H with d1 d2 d3 d4 d5 d6 d7 d8
    · obtain rfl := Option.some.inj H
      rw [to_halfwidth_ascii (by omega) (by omega)]
      simp only [Option.some.injEq]
      omega
    · obtain rfl := Option.some.inj H
      rw [to_halfwidth_bracket (by omega) (by omega)]
      simp only [Option.some.injEq]
      omega
    · obtain rfl := Option.some.inj H
      rw [to_halfwidth_currency (by omega) (by omega)]
      simp only [Option.some.injEq]
      omega
    · obtain rfl := Option.some.inj H; subst d4; decide
    · obtain rfl := Option.some.inj H; subst d5; decide
    · obtain rfl := Option.some.inj H; subst d6; decide
    · obtain rfl := Option.some.inj H; subst d7; decide
    · obtain rfl := Option.some.inj H; subst d8; decide

/-! ### Claim theorems -/

/-- C1: Round-trip inverse. For every code point `ch`, if
`to_halfwidth ch = some h` then `to_fullwidth h = some ch`, and
symmetrically if `to_fullwidth ch = some f` then `to_halfwidth f = some ch`. -/
theorem claim_roundtrip (ch v : Nat) :
    (to_halfwidth ch = some v → to_fullwidth v = some ch) ∧
    (to_fullwidth ch = some v → to_halfwidth v = some ch) :=
  ⟨fun H => roundtrip_half H, fun H => roundtrip_full H⟩

/-- Witness for C1 at the katakana KA pair (0x30ab, 0xff76). -/
theorem claim_roundtrip_witness :
    to_fullwidth 0xff76 = some 0x30ab ∧ to_halfwidth 0x30ab = some 0xff76 :=
  ⟨(claim_roundtrip 0x30ab 0xff76).1 (by decide),
   (claim_roundtrip 0xff76 0x30ab).2 (by decide)⟩

/-- C3: `is_nonstandard_width ch` is true exactly on the inclusive range
[0xff00, 0xffee]; in particular it is false at 0xffef. -/
theorem claim_is_nonstandard_width (ch : Nat) :
    (is_nonstandard_width ch = true ↔ 0xff00 ≤ ch ∧ ch ≤ 0xffee) ∧
    is_nonstandard_width 0xffef = false := by
  refine ⟨?_, by decide⟩
  unfold is_nonstandard_width
  split_ifs with h
  · simp [h]
  · simp [h]

/-- C2: the dispatcher `to_standard_width` delegates to `to_halfwidth` on
[0xff01, 0xff60] and [0xffe0, 0xffe6], to `to_fullwidth` on
[0xff61, 0xffdc] and [0xffe8, 0xffee], and returns `none` everywhere else;
in particular it is `none` at 'a' (0x61) although `to_fullwidth 0x61`
succeeds with 'a' fullwidth (0xff41). -/
theorem claim_dispatcher (ch : Nat) :
    ((0xff01 ≤ ch ∧ ch ≤ 0xff60) ∨ (0xffe0 ≤ ch ∧ ch ≤ 0xffe6) →
      to_standard_width ch = to_halfwidth ch) ∧
    ((0xff61 ≤ ch ∧ ch ≤ 0xffdc) ∨ (0xffe8 ≤ ch ∧ ch ≤ 0xffee) →
      to_standard_width ch = to_fullwidth ch) ∧
    (¬((0xff01 ≤ ch ∧ ch ≤ 0xff60) ∨ (0xff61 ≤ ch ∧ ch ≤ 0xffdc) ∨
       (0xffe0 ≤ ch ∧ ch ≤ 0xffe6) ∨ (0xffe8 ≤ ch ∧ ch ≤ 0xffee)) →
      to_standard_width ch = none) ∧
    to_standard_width 0x61 = none ∧ to_fullwidth 0x61 = some 0xff41 := by
  refine ⟨?_, ?_, ?_, by decide, by decide⟩ <;>
    (intro h
     unfold to_standard_width
     split_ifs <;> first | rfl | (exfalso; omega))

/-- Witness for C2 at the fullwidth exclamation mark 0xff01 (delegates to
`to_halfwidth`), the halfwidth ideographic full stop 0xff61 (delegates to
`to_fullwidth`), and plain 'a' (outside all four ranges). -/
theorem claim_dispatcher_witness :
    to_standard_width 0xff01 = to_halfwidth 0xff01 ∧
    to_standard_width 0xff61 = to_fullwidth 0xff61 ∧
    to_standard_width 0x61 = none :=
  ⟨(claim_dispatcher 0xff01).1 (by omega),
   (claim_dispatcher 0xff61).2.1 (by omega),
   (claim_dispatcher 0x61).2.2.1 (by omega)⟩

/-- Coverage of the halfwidth-variant rows of `to_fullwidth`, checked by
evaluation over the whole range [0xff61, 0xffdc]. -/
theorem coverage_aux : ∀ n : Nat, n < 0x7c →
    ((to_fullwidth (0xff61 + n)).isSome = true ↔
      ¬((0xffbf ≤ 0xff61 + n ∧ 0xff61 + n ≤ 0xffc1) ∨
        (0xffc8 ≤ 0xff61 + n ∧ 0xff61 + n ≤ 0xffc9) ∨
        (0xffd0 ≤ 0xff61 + n ∧ 0xff61 + n ≤ 0xffd1) ∨
        (0xffd8 ≤ 0xff61 + n ∧ 0xff61 + n ≤ 0xffd9))) := by decide

/-- Coverage of the arrow/shape row of `to_fullwidth`, checked by evaluation
over [0xffe8, 0xffee]. -/
theorem coverage_arrow_aux : ∀ n : Nat, n < 7 →
    (to_fullwidth (0xffe8 + n)).isSome = true := by decide

/-- C4: inside [0xff61, 0xffdc], `to_fullwidth` succeeds exactly off the four
unassigned gaps 0xffbf-0xffc1, 0xffc8-0xffc9, 0xffd0-0xffd1, 0xffd8-0xffd9;
on [0xffe8, 0xffee] it always succeeds. -/
theorem claim_fullwidth_coverage (ch : Nat) :
    (0xff61 ≤ ch → ch ≤ 0xffdc →
      ((to_fullwidth ch).isSome = true ↔
        ¬((0xffbf ≤ ch ∧ ch ≤ 0xffc1) ∨ (0xffc8 ≤ ch ∧ ch ≤ 0xffc9) ∨
          (0xffd0 ≤ ch ∧ ch ≤ 0xffd1) ∨ (0xffd8 ≤ ch ∧ ch ≤ 0xffd9)))) ∧
    (0xffe8 ≤ ch → ch ≤ 0xffee → (to_fullwidth ch).isSome = true) := by
  constructor
  · intro h1 h2
    have hx := coverage_aux (ch - 0xff61) (by omega)
    have e : 0xff61 + (ch - 0xff61) = ch := by omega
    rw [e] at hx
    exact hx
  · intro h1 h2
    have hx := coverage_arrow_aux (ch - 0xffe8) (by omega)
    have e : 0xffe8 + (ch - 0xffe8) = ch := by omega
    rw [e] at hx
    exact hx

/-- Witness for C4 at 0xff61 (mapped), 0xffbf (gap) and 0xffe8 (arrow row). -/
theorem claim_fullwidth_coverage_witness :
    ((to_fullwidth 0xff61).isSome = true ↔
      ¬((0xffbf ≤ 0xff61 ∧ (0xff61 : Nat) ≤ 0xffc1) ∨
        (0xffc8 ≤ 0xff61 ∧ (0xff61 : Nat) ≤ 0xffc9) ∨
        (0xffd0 ≤ 0xff61 ∧ (0xff61 : Nat) ≤ 0xffd1) ∨
        (0xffd8 ≤ 0xff61 ∧ (0xff61 : Nat) ≤ 0xffd9))) ∧
    ((to_fullwidth 0xffbf).isSome = true ↔
      ¬((0xffbf ≤ 0xffbf ∧ (0xffbf : Nat) ≤ 0xffc1) ∨
        (0xffc8 ≤ 0xffbf ∧ (0xffbf : Nat) ≤ 0xffc9) ∨
        (0xffd0 ≤ 0xffbf ∧ (0xffbf : Nat) ≤ 0xffd1) ∨
        (0xffd8 ≤ 0xffbf ∧ (0xffbf : Nat) ≤ 0xffd9))) ∧
    (to_fullwidth 0xffe8).isSome = true :=
  ⟨(claim_fullwidth_coverage 0xff61).1 (by omega) (by omega),
   (claim_fullwidth_coverage 0xffbf).1 (by omega) (by omega),
   (claim_fullwidth_coverage 0xffe8).2 (by omega) (by omega)⟩

/-- C5: the gap code points 0xffbf, 0xffc8, 0xffd0, 0xffd8, 0xffe7, 0xffef
yield `none` from `to_halfwidth`, `to_fullwidth` and `to_standard_width`. -/
theorem claim_gap_points :
    (to_halfwidth 0xffbf = none ∧ to_fullwidth 0xffbf = none ∧ to_standard_width 0xffbf = none) ∧
    (to_halfwidth 0xffc8 = none ∧ to_fullwidth 0xffc8 = none ∧ to_standard_width 0xffc8 = none) ∧
    (to_halfwidth 0xffd0 = none ∧ to_fullwidth 0xffd0 = none ∧ to_standard_width 0xffd0 = none) ∧
    (to_halfwidth 0xffd8 = none ∧ to_fullwidth 0xffd8 = none ∧ to_standard_width 0xffd8 = none) ∧
    (to_halfwidth 0xffe7 = none ∧ to_fullwidth 0xffe7 = none ∧ to_standard_width 0xffe7 = none) ∧
    (to_halfwidth 0xffef = none ∧ to_fullwidth 0xffef = none ∧ to_standard_width 0xffef = none) := by
  decide

/-- C6 as stated is false: 0xffa0 (halfwidth Hangul filler) is not a gap.
`to_fullwidth` maps it to 0x3164 (Hangul filler), and the dispatcher
follows suit. -/
theorem claim_ffa0_counterexample :
    ¬(to_fullwidth 0xffa0 = none) ∧ ¬(to_standard_width 0xffa0 = none) := by
  decide

/-- In `fwTable` only the key 0xffa0 carries the value 0x3164. -/
theorem fwTable_val_3164 : ∀ p ∈ fwTable, p.2 = 0x3164 → p.1 = 0xffa0 := by decide

/-- C6 (amended): the halfwidth Korean jamo filler 0xffa0 is mapped, not a
gap: `to_fullwidth 0xffa0 = some 0x3164`, `to_standard_width 0xffa0 =
some 0x3164`, and no other input of `to_fullwidth` collides with it by
also mapping to 0x3164. -/
theorem claim_ffa0_amended :
    to_fullwidth 0xffa0 = some 0x3164 ∧
    to_standard_width 0xffa0 = some 0x3164 ∧
    (∀ ch : Nat, to_fullwidth ch = some 0x3164 → ch = 0xffa0) := by
  refine ⟨by decide, by decide, ?_⟩
  intro ch H
  rcases to_fullwidth_shape H with ⟨hm, _⟩ | ⟨_, _, h3⟩ | ⟨_, _, h3⟩ | ⟨_, h2, h3⟩
  · exact fwTable_val_3164 _ hm rfl
  · omega
  · omega
  · omega

/-- Witness for C6 (amended): the uniqueness part applied at 0xffa0 itself. -/
theorem claim_ffa0_amended_witness : (0xffa0 : Nat) = 0xffa0 :=
  claim_ffa0_amended.2.2 0xffa0 (by decide)

/-- C7: the offset sub-ranges compute by a constant shift, in both
directions. -/
theorem claim_offsets (ch : Nat) :
    (0xff01 ≤ ch ∧ ch ≤ 0xff5e → to_halfwidth ch = some (ch - 0xff01 + 0x0021)) ∧
    (0xff5f ≤ ch ∧ ch ≤ 0xff60 → to_halfwidth ch = some (ch - 0xff5f + 0x2985)) ∧
    (0xffe0 ≤ ch ∧ ch ≤ 0xffe1 → to_halfwidth ch = some (ch - 0xffe0 + 0x00a2)) ∧
    (0x0021 ≤ ch ∧ ch ≤ 0x007e → to_fullwidth ch = some (ch - 0x0021 + 0xff01)) :=
  ⟨fun h => to_halfwidth_ascii h.1 h.2,
   fun h => to_halfwidth_bracket h.1 h.2,
   fun h => to_halfwidth_currency h.1 h.2,
   fun h => to_fullwidth_ascii h.1 h.2⟩

/-- Witness for C7 at 0xff21 (fullwidth A), 0xff5f, 0xffe0 and 0x41 (A). -/
theorem claim_offsets_witness :
    to_halfwidth 0xff21 = some 0x41 ∧ to_halfwidth 0xff5f = some 0x2985 ∧
    to_halfwidth 0xffe0 = some 0xa2 ∧ to_fullwidth 0x41 = some 0xff21 :=
  ⟨(claim_offsets 0xff21).1 (by omega), (claim_offsets 0xff5f).2.1 (by omega),
   (claim_offsets 0xffe0).2.2.1 (by omega), (claim_offsets 0x41).2.2.2 (by omega)⟩

/-- C8: the domains of `to_halfwidth` and `to_fullwidth` are disjoint: at
every code point at least one of them returns `none`. -/
theorem claim_disjoint_domains (ch : Nat) :
    to_halfwidth ch = none ∨ to_fullwidth ch = none := by
  cases hh : to_halfwidth ch with
  | none => exact Or.inl rfl
  | some h =>
    cases hf : to_fullwidth ch with
    | none => exact Or.inr rfl
    | some f =>
      exfalso
      rcases to_halfwidth_shape hh with ⟨a1, a2, _, _⟩ | ⟨a1, a2, _, _⟩ |
        ⟨_, a1, a2, a3, a4, _, _⟩ <;>
      rcases to_fullwidth_shape hf with ⟨_, b1, b2, b3, _, _⟩ | ⟨b1, b2, _⟩ |
        ⟨b1, b2, _⟩ | ⟨b1, _, _⟩ <;>
      omega

/-- The outputs of `to_halfwidth` are valid Unicode scalar values. -/
theorem to_halfwidth_scalar {ch v : Nat} (H : to_halfwidth ch = some v) :
    (v < 0xd800 ∨ 0xdfff < v) ∧ v ≤ 0x10ffff := by
  rcases to_halfwidth_shape H with ⟨_, _, h3, h4⟩ | ⟨_, _, h3, h4⟩ |
    ⟨_, _, _, _, _, h3, h4⟩ <;> omega

/-- The outputs of `to_fullwidth` are valid Unicode scalar values. -/
theorem to_fullwidth_scalar {ch v : Nat} (H : to_fullwidth ch = some v) :
    (v < 0xd800 ∨ 0xdfff < v) ∧ v ≤ 0x10ffff := by
  rcases to_fullwidth_shape H with ⟨_, _, _, _, h3, h4⟩ | ⟨h1, h2, h3⟩ |
    ⟨h1, h2, h3⟩ | ⟨_, h3, h4⟩ <;> omega

/-- `to_standard_width` only ever returns what one of the two delegates
returns. -/
theorem to_standard_width_cases {ch v : Nat} (H : to_standard_width ch = some v) :
    to_halfwidth ch = some v ∨ to_fullwidth ch = some v := by
  unfold to_standard_width at H
  split_ifs at H
  · exact Or.inl H
  · exact Or.inr H
  · exact Or.inl H
  · exact Or.inr H

/-- C9: every code point any of the three conversions returns is a valid
Unicode scalar value: it is outside the surrogate range [0xd800, 0xdfff]
and at most 0x10ffff.  (The embedded functions are total by construction,
so no input can make them fail.) -/
theorem claim_scalar_values (ch v : Nat) :
    (to_halfwidth ch = some v → (v < 0xd800 ∨ 0xdfff < v) ∧ v ≤ 0x10ffff) ∧
    (to_fullwidth ch = some v → (v < 0xd800 ∨ 0xdfff < v) ∧ v ≤ 0x10ffff) ∧
    (to_standard_width ch = some v → (v < 0xd800 ∨ 0xdfff < v) ∧ v ≤ 0x10ffff) := by
  refine ⟨fun H => to_halfwidth_scalar H, fun H => to_fullwidth_scalar H, fun H => ?_⟩
  rcases to_standard_width_cases H with H' | H'
  · exact to_halfwidth_scalar H'
  · exact to_fullwidth_scalar H'

/-- Witness for C9 at the fullwidth exclamation mark and the halfwidth
ideographic full stop. -/
theorem claim_scalar_values_witness :
    (((0x21 : Nat) < 0xd800 ∨ (0xdfff : Nat) < 0x21) ∧ (0x21 : Nat) ≤ 0x10ffff) ∧
    (((0x3002 : Nat) < 0xd800 ∨ (0xdfff : Nat) < 0x3002) ∧ (0x3002 : Nat) ≤ 0x10ffff) ∧
    (((0x30ab : Nat) < 0xd800 ∨ (0xdfff : Nat) < 0x30ab) ∧ (0x30ab : Nat) ≤ 0x10ffff) :=
  ⟨(claim_scalar_values 0xff01 0x21).1 (by decide),
   (claim_scalar_values 0xff61 0x3002).2.1 (by decide),
   (claim_scalar_values 0xff76 0x30ab).2.2 (by decide)⟩

/-- Below the Forms block, `is_nonstandard_width` is false. -/
theorem is_nonstandard_width_low {s : Nat} (h : s < 0xff00) :
    is_nonstandard_width s = false := by
  unfold is_nonstandard_width
  rw [if_neg (show ¬(0xff00 ≤ s ∧ s ≤ 0xffee) by omega)]

/-- Below the Forms block, `to_standard_width` is `none`. -/
theorem to_standard_width_low {s : Nat} (h : s < 0xff01) :
    to_standard_width s = none := by
  unfold to_standard_width
  split_ifs <;> first | rfl | (exfalso; omega)

/-- C10: a successful dispatcher output lands outside the Forms block, so
`is_nonstandard_width` rejects it and a second dispatch returns `none`. -/
theorem claim_fixed_point (ch s : Nat) (H : to_standard_width ch = some s) :
    is_nonstandard_width s = false ∧ to_standard_width s = none := by
  unfold to_standard_width at H
  split_ifs at H with t1 t2 t3 t4
  · have hs : s < 0xff00 := by
      rcases to_halfwidth_shape H with ⟨a1, a2, a3, a4⟩ | ⟨a1, a2, a3, a4⟩ |
        ⟨_, a1, a2, a3, a4, a5, a6⟩ <;> omega
    exact ⟨is_nonstandard_width_low hs, to_standard_width_low (by omega)⟩
  · have hs : s < 0xff00 := by
      rcases to_fullwidth_shape H with ⟨_, a1, a2, a3, a4, a5⟩ | ⟨a1, a2, a3⟩ |
        ⟨a1, a2, a3⟩ | ⟨a1, a2, a3⟩ <;> omega
    exact ⟨is_nonstandard_width_low hs, to_standard_width_low (by omega)⟩
  · have hs : s < 0xff00 := by
      rcases to_halfwidth_shape H with ⟨a1, a2, a3, a4⟩ | ⟨a1, a2, a3, a4⟩ |
        ⟨_, a1, a2, a3, a4, a5, a6⟩ <;> omega
    exact ⟨is_nonstandard_width_low hs, to_standard_width_low (by omega)⟩
  · have hs : s < 0xff00 := by
      rcases to_fullwidth_shape H with ⟨_, a1, a2, a3, a4, a5⟩ | ⟨a1, a2, a3⟩ |
        ⟨a1, a2, a3⟩ | ⟨a1, a2, a3⟩ <;> omega
    exact ⟨is_nonstandard_width_low hs, to_standard_width_low (by omega)⟩

/-- Witness for C10 at halfwidth katakana KA (0xff76 maps to 0x30ab). -/
theorem claim_fixed_point_witness :
    is_nonstandard_width 0x30ab = false ∧ to_standard_width 0x30ab = none :=
  claim_fixed_point 0xff76 0x30ab (by decide)
